import Mathlib

/-!
Verification of the `square100` board abstraction (src/src/lib.rs).

The board is an N×N grid of `u8` cell values (0 = empty) with a cursor at the
most recently filled cell.  Machine integers are modelled as `Nat` with an
explicit `% 256` where `u8` overflow matters; `Vec` indexing is modelled with
`List.getD`; the Rust methods taking `&mut self` and returning `Result` are
modelled as functions returning a pair of an `Except` result and the board
after the call (error paths in the source return before any mutation, so the
board component on an error is the unchanged input).
-/

/-- The eight move directions, in source declaration order. -/
inductive Direction where
  | down
  | downRight
  | right
  | upRight
  | up
  | upLeft
  | left
  | downLeft
deriving DecidableEq

/-- `const HV_OFFSET: i32 = 3`. -/
def hvOffset : Int := 3

/-- `const DIAG_OFFSET: i32 = 2`. -/
def diagOffset : Int := 2

/-- `Direction::iterator()`: the static list of all eight directions, in order. -/
def Direction.list : List Direction :=
  [.down, .downRight, .right, .upRight, .up, .upLeft, .left, .downLeft]

/-- `MyError`: one constructor per distinct error message built in the source,
carrying the data interpolated into that message. -/
inductive MyError where
  | emptyBoard : MyError
  | invalidMove (dir : Direction) : MyError
  | cannotClear (x y : Nat) : MyError
  | invalidValue (x y value maxValue : Nat) : MyError
  | outOfRange (x y maxSize : Nat) : MyError
  | cannotChange (x y : Nat) : MyError
deriving DecidableEq

/-- `struct Board`: `values` holds the `u8` cell contents row-major
(index `y * size + x`), `(x, y)` is the cursor (last move location). -/
structure Board where
  size : Nat
  cells : Nat
  values : List Nat
  x : Nat
  y : Nat
deriving DecidableEq

/-- `Board::new`: clamp `size` into `[5,16]` (two successive `if`s in the
source), then allocate `size * size` zeroed cells with cursor `(0,0)`. -/
def Board.new (size : Nat) : Board :=
  let size1 := if size < 5 then 5 else size
  let size2 := if size1 > 16 then 16 else size1
  { size := size2
    cells := size2 * size2
    values := List.replicate (size2 * size2) 0
    x := 0
    y := 0 }

/-- The row-major index of the cursor, `self.y * self.size + self.x`. -/
def Board.cursorIdx (b : Board) : Nat := b.y * b.size + b.x

/-- `Board::is_started`: `self.values[self.y * self.size + self.x] > 0`. -/
def Board.is_started (b : Board) : Bool :=
  decide (0 < b.values.getD b.cursorIdx 0)

/-- `Board::valid_move`: on a started board, offset the cursor by the
direction's delta (`i32` arithmetic) and return the destination when it is
on the grid and its cell holds 0. -/
def Board.valid_move (b : Board) (dir : Direction) : Option (Nat × Nat) :=
  let x : Int := b.x
  let y : Int := b.y
  let size : Int := b.size
  if b.is_started then
    let p : Int × Int :=
      match dir with
      | .down => (x, y + hvOffset)
      | .downRight => (x + diagOffset, y + diagOffset)
      | .right => (x + hvOffset, y)
      | .upRight => (x + diagOffset, y - diagOffset)
      | .up => (x, y - hvOffset)
      | .upLeft => (x - diagOffset, y - diagOffset)
      | .left => (x - hvOffset, y)
      | .downLeft => (x - diagOffset, y + diagOffset)
    if 0 ≤ p.1 ∧ 0 ≤ p.2 ∧ p.1 < size ∧ p.2 < size ∧
        b.values.getD (p.2 * size + p.1).toNat 0 = 0 then
      some (p.1.toNat, p.2.toNat)
    else
      none
  else
    none

/-- `Board::possible_moves`: the directions whose `valid_move` succeeds, in
iterator order. -/
def Board.possible_moves (b : Board) : List Direction :=
  Direction.list.filter (fun d => (b.valid_move d).isSome)

/-- `Board::set_cell`: the sole mutator.  Rejects out-of-range coordinates and
non-zero target cells; otherwise moves the cursor and writes the value. -/
def Board.set_cell (b : Board) (x y value : Nat) : Except MyError Unit × Board :=
  if b.size ≤ x ∨ b.size ≤ y then
    (Except.error (MyError.outOfRange x y b.size), b)
  else if b.values.getD (y * b.size + x) 0 ≠ 0 then
    (Except.error (MyError.cannotChange x y), b)
  else
    (Except.ok (), { b with x := x, y := y, values := b.values.set (y * b.size + x) value })

/-- `Board::set_value`: rejects value 0 and values above `cells`, then defers
to `set_cell`. -/
def Board.set_value (b : Board) (x y value : Nat) : Except MyError Unit × Board :=
  if value < 1 then
    (Except.error (MyError.cannotClear x y), b)
  else if b.cells < value then
    (Except.error (MyError.invalidValue x y value b.cells), b)
  else
    b.set_cell x y value

/-- `Board::start_at`: write value 1 at `(x, y)`. -/
def Board.start_at (b : Board) (x y : Nat) : Except MyError Unit × Board :=
  b.set_value x y 1

/-- `Board::next_move`: fail on an unstarted board; otherwise read the value
under the cursor and write its successor (u8 arithmetic, hence `% 256`) at
the destination of `valid_move`, failing when there is none. -/
def Board.next_move (b : Board) (dir : Direction) : Except MyError Unit × Board :=
  if ¬ b.is_started then
    (Except.error MyError.emptyBoard, b)
  else
    let val := b.values.getD b.cursorIdx 0
    match b.valid_move dir with
    | some (x, y) => b.set_cell x y ((val + 1) % 256)
    | none => (Except.error (MyError.invalidMove dir), b)

/-- `Board::is_won`: the cursor cell equals `self.cells as u8` (hence the
`% 256`) and no cell is zero. -/
def Board.is_won (b : Board) : Bool :=
  decide (b.values.getD b.cursorIdx 0 = b.cells % 256) && !(b.values.contains 0)

/-- `Board::is_blocked`: started and no possible moves. -/
def Board.is_blocked (b : Board) : Bool :=
  b.is_started && decide (b.possible_moves.length = 0)

/-- `Board::score`: the fold of `u8::max` over the values, seeded with 0. -/
def Board.score (b : Board) : Nat :=
  b.values.foldl Nat.max 0

/-- A public mutating call on a board: `start_at` or `next_move`. -/
inductive Op where
  | start (x y : Nat) : Op
  | move (dir : Direction) : Op
deriving DecidableEq

/-- The board after one public call (on error the source leaves `self`
unchanged, so this is the second component of the modelled call). -/
def Board.applyOp (b : Board) : Op → Board
  | .start x y => (b.start_at x y).2
  | .move dir => (b.next_move dir).2

/-- The board after a sequence of public calls. -/
def Board.applyOps (b : Board) (ops : List Op) : Board :=
  ops.foldl Board.applyOp b

/-- Run one public call, keeping the board only when the call returned `Ok`. -/
def Board.applyOpChecked (b : Board) : Op → Option Board
  | .start x y =>
    match b.start_at x y with
    | (Except.ok _, b2) => some b2
    | (Except.error _, _) => none
  | .move dir =>
    match b.next_move dir with
    | (Except.ok _, b2) => some b2
    | (Except.error _, _) => none

/-- Run a sequence of public calls, succeeding only when every call did. -/
def Board.runChecked (b : Board) (ops : List Op) : Option Board :=
  ops.foldl (fun ob op => ob.bind (fun bb => bb.applyOpChecked op)) (some b)

/-- Well-formedness of a board, as established by `Board::new` and preserved
by every operation: clamped size, consistent `cells` and `values` length,
`u8`-ranged values, in-range cursor. -/
abbrev Board.Wf (b : Board) : Prop :=
  5 ≤ b.size ∧ b.size ≤ 16 ∧ b.cells = b.size * b.size ∧
    b.values.length = b.size * b.size ∧ (∀ v ∈ b.values, v < 256) ∧
    b.x < b.size ∧ b.y < b.size

/-- The inductive invariant for the cursor-maximum property: consistent
length, in-range cursor, `u8`-ranged values, and — once started — every
value bounded by the value under the cursor. -/
def Board.Inv (b : Board) : Prop :=
  b.values.length = b.size * b.size ∧ b.x < b.size ∧ b.y < b.size ∧
    (∀ v ∈ b.values, v < 256) ∧
    (b.is_started = true → ∀ v ∈ b.values, v ≤ b.values.getD b.cursorIdx 0)

/-- The per-direction cursor offset exactly as the specification's move
geometry table states it (Δx, Δy). -/
def specOffset : Direction → Int × Int
  | .down => (0, 3)
  | .downRight => (2, 2)
  | .right => (3, 0)
  | .upRight => (2, -2)
  | .up => (0, -3)
  | .upLeft => (-2, -2)
  | .left => (-3, 0)
  | .downLeft => (-2, 2)

/-- The 24-move winning sequence of the 5x5 worked example (test `win_5`). -/
def winMoves : List Direction :=
  [.right, .down, .left, .upRight, .downRight, .left, .upRight, .down, .upLeft,
   .right, .downLeft, .upLeft, .upRight, .down, .upLeft, .down, .upRight,
   .downRight, .up, .left, .down, .upRight, .upLeft, .right]

/-- A 254-move sequence on the 16x16 board (found by search) whose every
move succeeds, driving the cursor value to 255 with a further legal move
still available.  Split into four chunks to keep elaboration cheap. -/
def overflowChunk1 : List Direction :=
  [.down, .upRight, .right, .right, .right, .right,
   .down, .down, .down, .down, .downLeft, .right,
   .up, .downLeft, .left, .upRight, .downRight, .up,
   .up, .up, .up, .upLeft, .right, .down,
   .upLeft, .left, .downRight, .down, .right, .down,
   .left, .downLeft, .right, .downRight, .downLeft, .upLeft,
   .downLeft, .left, .upRight, .downRight, .upRight, .downRight,
   .up, .up, .up, .up, .up, .left,
   .downRight, .downRight, .up, .left, .down, .upLeft,
   .upLeft, .left, .left, .downLeft, .down, .down,
   .down, .down, .right, .right]

def overflowChunk2 : List Direction :=
  [.right, .right, .right, .up, .up, .up,
   .up, .upLeft, .down, .down, .upLeft, .upLeft,
   .right, .upLeft, .left, .left, .left, .down,
   .down, .down, .down, .down, .right, .right,
   .upRight, .downRight, .upRight, .up, .downLeft, .up,
   .upRight, .up, .upLeft, .upLeft, .left, .left,
   .downLeft, .down, .down, .down, .down, .right,
   .right, .upRight, .downRight, .upRight, .upRight, .up,
   .downLeft, .downLeft, .up, .up, .upLeft, .upLeft,
   .left, .left, .downRight, .right, .downRight, .upRight,
   .downRight, .down, .down, .left]

def overflowChunk3 : List Direction :=
  [.left, .left, .downLeft, .downRight, .left, .upRight,
   .right, .upRight, .upRight, .up, .upLeft, .right,
   .upLeft, .left, .left, .downLeft, .up, .downRight,
   .down, .upRight, .upRight, .left, .downLeft, .down,
   .down, .upRight, .up, .upRight, .upLeft, .down,
   .downRight, .down, .right, .upRight, .down, .down,
   .downLeft, .up, .left, .down, .upRight, .left,
   .downLeft, .up, .up, .downRight, .downRight, .left,
   .left, .up, .up, .right, .down, .right,
   .right, .right, .up, .left, .left, .upLeft,
   .down, .right, .up, .up]

def overflowChunk4 : List Direction :=
  [.left, .downRight, .right, .up, .left, .downRight,
   .down, .downRight, .up, .right, .down, .upLeft,
   .up, .downLeft, .downRight, .down, .upLeft, .downLeft,
   .up, .upLeft, .upRight, .left, .downLeft, .downRight,
   .upRight, .down, .downLeft, .downRight, .downRight, .upRight,
   .upLeft, .up, .downRight, .up, .upLeft, .downLeft,
   .down, .downRight, .up, .left, .upRight, .upLeft,
   .downLeft, .left, .downRight, .upRight, .upLeft, .down,
   .down, .downRight, .up, .right, .down, .upLeft,
   .up, .downLeft, .down, .downRight, .up, .left,
   .down, .upLeft]

def overflowPath : List Direction :=
  overflowChunk1 ++ overflowChunk2 ++ overflowChunk3 ++ overflowChunk4

/-- The 255th legal move available at the end of overflowPath. -/
def overflowDir : Direction := .up

/-- The public call sequence of the end-to-end 5x5 winning scenario. -/
def winOps : List Op := Op.start 0 0 :: winMoves.map Op.move

/-- The public call sequence reaching the `u8` overflow on the 16x16 board. -/
def overflowOps : List Op := Op.start 0 0 :: overflowPath.map Op.move

/-- The reachable state used to refute the current-max reading of C4:
a 5x5 board started at (0,0), one move right (scoring 2), then a second
`start_at(1,1)` which parks the cursor on a cell holding 1. -/
def c4Board : Board :=
  (Board.new 5).applyOps [Op.start 0 0, Op.move Direction.right, Op.start 1 1]

/-- The reachable state used to refute C6 as stated: a 5x5 board started at
(0,0), one move right, then a second `start_at(1,1)` — a sequence of public
operations the data model does not prevent. -/
def c6Board : Board :=
  (Board.new 5).applyOps [Op.start 0 0, Op.move Direction.right, Op.start 1 1]

theorem foldl_max_init (l : List Nat) (a : Nat) : a ≤ l.foldl Nat.max a := by
  induction l generalizing a with
  | nil => exact Nat.le_refl a
  | cons b t ih => exact Nat.le_trans (Nat.le_max_left a b) (ih (Nat.max a b))

theorem foldl_max_mem (l : List Nat) (a v : Nat) (hv : v ∈ l) :
    v ≤ l.foldl Nat.max a := by
  induction l generalizing a with
  | nil => cases hv
  | cons b t ih =>
    rcases List.mem_cons.mp hv with h | h
    · subst h
      exact Nat.le_trans (Nat.le_max_right a v) (foldl_max_init t (Nat.max a v))
    · exact ih (Nat.max a b) h

theorem foldl_max_le (l : List Nat) (a c : Nat) (ha : a ≤ c)
    (hl : ∀ v ∈ l, v ≤ c) : l.foldl Nat.max a ≤ c := by
  induction l generalizing a with
  | nil => exact ha
  | cons b t ih =>
    exact ih (Nat.max a b)
      (Nat.max_le.mpr ⟨ha, hl b (List.mem_cons_self b t)⟩)
      (fun v hv => hl v (List.mem_cons_of_mem b hv))

theorem score_eq_of_max (b : Board) (c : Nat) (hmem : c ∈ b.values)
    (hub : ∀ v ∈ b.values, v ≤ c) : b.score = c :=
  Nat.le_antisymm (foldl_max_le b.values 0 c (Nat.zero_le c) hub)
    (foldl_max_mem b.values 0 c hmem)

theorem getD_replicate_zero (k i : Nat) :
    (List.replicate k (0 : Nat)).getD i 0 = 0 := by
  rw [List.getD_eq_getElem?_getD, List.getElem?_replicate]
  split <;> rfl

theorem idx_lt_of_coords_lt (x y s : Nat) (hx : x < s) (hy : y < s) :
    y * s + x < s * s := by
  calc y * s + x < y * s + s := by omega
  _ = (y + 1) * s := by ring
  _ ≤ s * s := Nat.mul_le_mul_right s hy

theorem valid_move_of_not_started (b : Board) (d : Direction)
    (h : b.is_started = false) : b.valid_move d = none := by
  unfold Board.valid_move
  simp [h]

theorem set_cell_oob (b : Board) (x y v : Nat) (h1 : b.size ≤ x ∨ b.size ≤ y) :
    b.set_cell x y v = (Except.error (MyError.outOfRange x y b.size), b) := by
  unfold Board.set_cell
  rw [if_pos h1]

theorem set_cell_occupied (b : Board) (x y v : Nat)
    (h1 : ¬ (b.size ≤ x ∨ b.size ≤ y)) (h2 : b.values.getD (y * b.size + x) 0 ≠ 0) :
    b.set_cell x y v = (Except.error (MyError.cannotChange x y), b) := by
  unfold Board.set_cell
  rw [if_neg h1, if_pos h2]

theorem set_cell_ok (b : Board) (x y v : Nat)
    (h1 : ¬ (b.size ≤ x ∨ b.size ≤ y)) (h2 : b.values.getD (y * b.size + x) 0 = 0) :
    b.set_cell x y v =
      (Except.ok (), { b with x := x, y := y, values := b.values.set (y * b.size + x) v }) := by
  unfold Board.set_cell
  rw [if_neg h1, if_neg (by simpa using h2)]

theorem set_value_low (b : Board) (x y v : Nat) (h1 : v < 1) :
    b.set_value x y v = (Except.error (MyError.cannotClear x y), b) := by
  unfold Board.set_value
  rw [if_pos h1]

theorem set_value_high (b : Board) (x y v : Nat) (h1 : ¬ v < 1) (h2 : b.cells < v) :
    b.set_value x y v = (Except.error (MyError.invalidValue x y v b.cells), b) := by
  unfold Board.set_value
  rw [if_neg h1, if_pos h2]

theorem set_value_delegates (b : Board) (x y v : Nat) (h1 : ¬ v < 1) (h2 : ¬ b.cells < v) :
    b.set_value x y v = b.set_cell x y v := by
  unfold Board.set_value
  rw [if_neg h1, if_neg h2]

theorem next_move_unstarted (b : Board) (d : Direction) (h : b.is_started = false) :
    b.next_move d = (Except.error MyError.emptyBoard, b) := by
  unfold Board.next_move
  rw [if_pos (by simp [h])]

theorem next_move_no_dest (b : Board) (d : Direction) (hs : b.is_started = true)
    (hv : b.valid_move d = none) :
    b.next_move d = (Except.error (MyError.invalidMove d), b) := by
  unfold Board.next_move
  rw [if_neg (by simp [hs]), hv]

theorem next_move_dest (b : Board) (d : Direction) (x y : Nat)
    (hs : b.is_started = true) (hv : b.valid_move d = some (x, y)) :
    b.next_move d = b.set_cell x y ((b.values.getD b.cursorIdx 0 + 1) % 256) := by
  unfold Board.next_move
  rw [if_neg (by simp [hs]), hv]

theorem set_cell_error_unchanged (b : Board) (x y v : Nat) (e : MyError)
    (h : (b.set_cell x y v).1 = Except.error e) : (b.set_cell x y v).2 = b := by
  by_cases h1 : b.size ≤ x ∨ b.size ≤ y
  · rw [set_cell_oob b x y v h1]
  · by_cases h2 : b.values.getD (y * b.size + x) 0 ≠ 0
    · rw [set_cell_occupied b x y v h1 h2]
    · push_neg at h2
      rw [set_cell_ok b x y v h1 h2] at h
      cases h

theorem set_value_error_unchanged (b : Board) (x y v : Nat) (e : MyError)
    (h : (b.set_value x y v).1 = Except.error e) : (b.set_value x y v).2 = b := by
  by_cases h1 : v < 1
  · rw [set_value_low b x y v h1]
  · by_cases h2 : b.cells < v
    · rw [set_value_high b x y v h1 h2]
    · rw [set_value_delegates b x y v h1 h2] at h ⊢
      exact set_cell_error_unchanged b x y v e h

theorem getD_set_ne (l : List Nat) (j v i : Nat) (h : j ≠ i) :
    (l.set j v).getD i 0 = l.getD i 0 := by
  simp only [List.getD_eq_getElem?_getD]
  rw [List.getElem?_set_ne h]

theorem set_cell_preserves_nonzero (b : Board) (x y v i : Nat)
    (h : b.values.getD i 0 ≠ 0) :
    ((b.set_cell x y v).2).values.getD i 0 = b.values.getD i 0 := by
  by_cases h1 : b.size ≤ x ∨ b.size ≤ y
  · rw [set_cell_oob b x y v h1]
  · by_cases h2 : b.values.getD (y * b.size + x) 0 ≠ 0
    · rw [set_cell_occupied b x y v h1 h2]
    · push_neg at h2
      rw [set_cell_ok b x y v h1 h2]
      exact getD_set_ne b.values (y * b.size + x) v i
        (fun he => h (he ▸ h2))

theorem set_value_preserves_nonzero (b : Board) (x y v i : Nat)
    (h : b.values.getD i 0 ≠ 0) :
    ((b.set_value x y v).2).values.getD i 0 = b.values.getD i 0 := by
  by_cases h1 : v < 1
  · rw [set_value_low b x y v h1]
  · by_cases h2 : b.cells < v
    · rw [set_value_high b x y v h1 h2]
    · rw [set_value_delegates b x y v h1 h2]
      exact set_cell_preserves_nonzero b x y v i h

theorem next_move_preserves_nonzero (b : Board) (d : Direction) (i : Nat)
    (h : b.values.getD i 0 ≠ 0) :
    ((b.next_move d).2).values.getD i 0 = b.values.getD i 0 := by
  rcases hs : b.is_started with _ | _
  · rw [next_move_unstarted b d hs]
  · rcases hv : b.valid_move d with _ | ⟨x, y⟩
    · rw [next_move_no_dest b d hs hv]
    · rw [next_move_dest b d x y hs hv]
      exact set_cell_preserves_nonzero b x y _ i h

theorem applyOp_preserves_nonzero (b : Board) (op : Op) (i : Nat)
    (h : b.values.getD i 0 ≠ 0) :
    (b.applyOp op).values.getD i 0 = b.values.getD i 0 := by
  cases op with
  | start x y => exact set_value_preserves_nonzero b x y 1 i h
  | move d => exact next_move_preserves_nonzero b d i h

theorem applyOps_cons (b : Board) (op : Op) (t : List Op) :
    b.applyOps (op :: t) = (b.applyOp op).applyOps t := rfl

theorem applyOps_preserves_nonzero (ops : List Op) (b : Board) (i : Nat)
    (h : b.values.getD i 0 ≠ 0) :
    (b.applyOps ops).values.getD i 0 = b.values.getD i 0 := by
  induction ops generalizing b with
  | nil => rfl
  | cons op t ih =>
    rw [applyOps_cons]
    have h1 := applyOp_preserves_nonzero b op i h
    rw [ih (b.applyOp op) (by rw [h1]; exact h), h1]

/-- C10: whenever `start_at(x, y)` returns an error — out-of-range
coordinates, or an already non-zero target cell — the board is left
completely unchanged: `values`, cursor and `size` all retain their prior
contents. -/
theorem start_at_error_atomic (b : Board) (x y : Nat) (e : MyError)
    (h : (b.start_at x y).1 = Except.error e) :
    ((b.start_at x y).2).values = b.values ∧ ((b.start_at x y).2).x = b.x ∧
      ((b.start_at x y).2).y = b.y ∧ ((b.start_at x y).2).size = b.size := by
  have hb : (b.start_at x y).2 = b := set_value_error_unchanged b x y 1 e h
  rw [hb]
  exact ⟨rfl, rfl, rfl, rfl⟩

/-- Witness for C10: `start_at(7, 7)` on a fresh 5x5 board fails with
`OutOfRange` and leaves the board unchanged. -/
theorem start_at_error_atomic_witness :
    ((Board.new 5).start_at 7 7).1 = Except.error (MyError.outOfRange 7 7 5) ∧
      (((Board.new 5).start_at 7 7).2).values = (Board.new 5).values ∧
      (((Board.new 5).start_at 7 7).2).x = (Board.new 5).x ∧
      (((Board.new 5).start_at 7 7).2).y = (Board.new 5).y ∧
      (((Board.new 5).start_at 7 7).2).size = (Board.new 5).size :=
  ⟨rfl, start_at_error_atomic (Board.new 5) 7 7 (MyError.outOfRange 7 7 5) rfl⟩

/-- C5: on an unstarted board `next_move` fails with the empty-board error
(`InvalidState`) and returns the board unmodified; on a started board whose
`valid_move` yields no destination it fails with the invalid-move error
naming the attempted direction, again returning the board unmodified. -/
theorem next_move_error_spec (b : Board) (dir : Direction) :
    (b.is_started = false → b.next_move dir = (Except.error MyError.emptyBoard, b)) ∧
      (b.is_started = true → b.valid_move dir = none →
        b.next_move dir = (Except.error (MyError.invalidMove dir), b)) :=
  ⟨fun h => next_move_unstarted b dir h, fun hs hv => next_move_no_dest b dir hs hv⟩

/-- Witness for C5: a fresh 5x5 board is unstarted, and `next_move(Left)`
fails leaving it unchanged; after `start_at(0,0)` the board is started,
`valid_move(Left)` is off-grid, and `next_move(Left)` fails with the error
naming `Left`, leaving the board unchanged. -/
theorem next_move_error_spec_witness :
    (Board.new 5).is_started = false ∧
      (Board.new 5).next_move Direction.left =
        (Except.error MyError.emptyBoard, Board.new 5) ∧
      (((Board.new 5).start_at 0 0).2).is_started = true ∧
      (((Board.new 5).start_at 0 0).2).valid_move Direction.left = none ∧
      (((Board.new 5).start_at 0 0).2).next_move Direction.left =
        (Except.error (MyError.invalidMove Direction.left), ((Board.new 5).start_at 0 0).2) :=
  ⟨by decide, (next_move_error_spec (Board.new 5) Direction.left).1 (by decide),
    by decide, by decide,
    (next_move_error_spec (((Board.new 5).start_at 0 0).2) Direction.left).2
      (by decide) (by decide)⟩

/-- C2: write-once invariant.  In any state reached from `new` by a sequence
of public calls, a cell holding a non-zero value is never changed by any
further sequence of calls. -/
theorem write_once_invariant (n : Nat) (ops0 ops1 : List Op) (i : Nat)
    (h : ((Board.new n).applyOps ops0).values.getD i 0 ≠ 0) :
    ((Board.new n).applyOps (ops0 ++ ops1)).values.getD i 0
      = ((Board.new n).applyOps ops0).values.getD i 0 := by
  unfold Board.applyOps
  rw [List.foldl_append]
  exact applyOps_preserves_nonzero ops1 _ i h

/-- Witness for C2: after `start_at(0,0)` cell 0 holds 1 (non-zero), and it
still holds 1 after a further successful move. -/
theorem write_once_invariant_witness :
    ((Board.new 5).applyOps [Op.start 0 0]).values.getD 0 0 ≠ 0 ∧
      ((Board.new 5).applyOps ([Op.start 0 0] ++ [Op.move Direction.right])).values.getD 0 0
        = ((Board.new 5).applyOps [Op.start 0 0]).values.getD 0 0 :=
  ⟨by decide, write_once_invariant 5 [Op.start 0 0] [Op.move Direction.right] 0 (by decide)⟩

/-- C9: the end-to-end 5x5 scenario.  `start_at(0,0)` followed by the fixed
24-move sequence has every call succeed and ends won, with score 25, no
possible moves, and blocked. -/
theorem win5_scenario :
    ((Board.new 5).runChecked winOps).isSome = true ∧
      (((Board.new 5).runChecked winOps).getD (Board.new 5)).is_won = true ∧
      (((Board.new 5).runChecked winOps).getD (Board.new 5)).score = 25 ∧
      (((Board.new 5).runChecked winOps).getD (Board.new 5)).possible_moves = [] ∧
      (((Board.new 5).runChecked winOps).getD (Board.new 5)).is_blocked = true := by
  refine ⟨by decide, by decide, by decide, by decide, by decide⟩

/-- C8: `new(size)` clamps the size into `[5,16]`, allocates a zero-filled
value list of length `size*size`, puts the cursor at `(0,0)`, and the fresh
board is unstarted with score 0, not won, and with no possible moves. -/
theorem new_board_spec (n : Nat) :
    (Board.new n).size = min 16 (max 5 n) ∧
      5 ≤ (Board.new n).size ∧ (Board.new n).size ≤ 16 ∧
      (Board.new n).cells = (Board.new n).size * (Board.new n).size ∧
      (Board.new n).values = List.replicate ((Board.new n).size * (Board.new n).size) 0 ∧
      (Board.new n).x = 0 ∧ (Board.new n).y = 0 ∧
      (Board.new n).is_started = false ∧
      (Board.new n).score = 0 ∧
      (Board.new n).is_won = false ∧
      (Board.new n).possible_moves = [] := by
  have hsize : (Board.new n).size = min 16 (max 5 n) := by
    simp only [Board.new]
    split_ifs <;> omega
  have h5 : 5 ≤ (Board.new n).size := by rw [hsize]; omega
  have h16 : (Board.new n).size ≤ 16 := by rw [hsize]; omega
  have hst : (Board.new n).is_started = false := by
    unfold Board.is_started
    rw [show (Board.new n).values
        = List.replicate ((Board.new n).size * (Board.new n).size) 0 from rfl]
    rw [getD_replicate_zero]
    rfl
  have hsc : (Board.new n).score = 0 := by
    unfold Board.score
    refine Nat.le_antisymm (foldl_max_le _ 0 0 (Nat.le_refl 0) ?_) (Nat.zero_le _)
    intro v hv
    rw [List.eq_of_mem_replicate hv]
  have hwon : (Board.new n).is_won = false := by
    unfold Board.is_won
    have hmem : (0 : Nat) ∈ (Board.new n).values := by
      rw [show (Board.new n).values
          = List.replicate ((Board.new n).size * (Board.new n).size) 0 from rfl]
      exact List.mem_replicate.mpr ⟨by positivity, rfl⟩
    simp [List.contains, List.elem_eq_mem, hmem]
  have hpm : (Board.new n).possible_moves = [] := by
    unfold Board.possible_moves
    have hall : ∀ d, (Board.new n).valid_move d = none :=
      fun d => valid_move_of_not_started _ d hst
    simp [hall, Direction.list]
  exact ⟨hsize, h5, h16, rfl, rfl, rfl, rfl, hst, hsc, hwon, hpm⟩

theorem not_mem_iff_all_ne (l : List Nat) : (0 ∉ l) ↔ (∀ v ∈ l, v ≠ 0) := by
  constructor
  · intro h v hv he
    exact h (he ▸ hv)
  · intro h hm
    exact h 0 hm rfl

/-- C1: for every well-formed board (the invariant `new` establishes, any
constructed size in `[5,16]` included), `is_won()` is true iff the value at
the cursor equals `cells = size*size` and no entry of `values` is zero.  At
size 16 the source compares against `cells as u8 = 0`, yet both sides of the
equivalence are then unsatisfiable — the cursor value is a `u8` (< 256), and
a zero cursor value contradicts the no-zero condition — so the equivalence
holds there too. -/
theorem is_won_iff_full_and_max_at_cursor (b : Board) (h : b.Wf) :
    b.is_won = true ↔
      (b.values.getD b.cursorIdx 0 = b.cells ∧ ∀ v ∈ b.values, v ≠ 0) := by
  obtain ⟨h5, h16, hc, hlen, h256, hx, hy⟩ := h
  have hidx : b.cursorIdx < b.values.length := by
    rw [hlen]
    exact idx_lt_of_coords_lt b.x b.y b.size hx hy
  have hmem : b.values.getD b.cursorIdx 0 ∈ b.values := by
    rw [List.getD_eq_getElem _ _ hidx]
    exact List.getElem_mem hidx
  have hcv : b.values.getD b.cursorIdx 0 < 256 := h256 _ hmem
  have hcont : (b.values.contains 0 = false) ↔ (∀ v ∈ b.values, v ≠ 0) := by
    rw [← not_mem_iff_all_ne]
    simp [List.contains, List.elem_eq_mem]
  unfold Board.is_won
  rw [Bool.and_eq_true, decide_eq_true_eq, Bool.not_eq_true']
  rcases Nat.lt_or_ge b.size 16 with hlt | hge
  · have hcell : b.cells < 256 := by
      rw [hc]
      calc b.size * b.size ≤ 15 * 15 := Nat.mul_le_mul (by omega) (by omega)
      _ < 256 := by norm_num
    rw [Nat.mod_eq_of_lt hcell, hcont]
  · have hsz : b.size = 16 := Nat.le_antisymm h16 hge
    have hcell : b.cells = 256 := by rw [hc, hsz]
    constructor
    · rintro ⟨hcv0, hnz⟩
      rw [hcell, show (256 : Nat) % 256 = 0 from rfl] at hcv0
      exact absurd hcv0 ((hcont.mp hnz) _ hmem)
    · rintro ⟨hcv2, _⟩
      rw [hcell] at hcv2
      omega

/-- Witness for C1 at the fresh 5x5 board. -/
theorem is_won_iff_witness :
    Board.Wf (Board.new 5) ∧
      ((Board.new 5).is_won = true ↔
        ((Board.new 5).values.getD (Board.new 5).cursorIdx 0 = (Board.new 5).cells ∧
          ∀ v ∈ (Board.new 5).values, v ≠ 0)) :=
  ⟨by decide, is_won_iff_full_and_max_at_cursor (Board.new 5) (by decide)⟩

theorem toNat_linear (q1 q2 s : Nat) :
    ((q2 : Int) * (s : Int) + (q1 : Int)).toNat = q2 * s + q1 := by
  rw [← Int.natCast_mul, ← Int.natCast_add, Int.toNat_natCast]

theorem valid_move_shape (b : Board) (d : Direction) :
    b.valid_move d =
      (if b.is_started then
        (if 0 ≤ (b.x : Int) + (specOffset d).1 ∧ 0 ≤ (b.y : Int) + (specOffset d).2 ∧
            (b.x : Int) + (specOffset d).1 < (b.size : Int) ∧
            (b.y : Int) + (specOffset d).2 < (b.size : Int) ∧
            b.values.getD (((b.y : Int) + (specOffset d).2) * (b.size : Int)
              + ((b.x : Int) + (specOffset d).1)).toNat 0 = 0 then
          some (((b.x : Int) + (specOffset d).1).toNat, ((b.y : Int) + (specOffset d).2).toNat)
        else none)
      else none) := by
  cases d <;>
    simp only [Board.valid_move, specOffset, hvOffset, diagOffset, Int.add_zero,
      Int.sub_eq_add_neg]

theorem valid_move_some_iff (b : Board) (d : Direction) (p : Nat × Nat) :
    b.valid_move d = some p ↔
      (b.is_started = true ∧
        (p.1 : Int) = (b.x : Int) + (specOffset d).1 ∧
        (p.2 : Int) = (b.y : Int) + (specOffset d).2 ∧
        p.1 < b.size ∧ p.2 < b.size ∧
        b.values.getD (p.2 * b.size + p.1) 0 = 0) := by
  rw [valid_move_shape]
  rcases hs : b.is_started with _ | _
  · simp [hs]
  · simp only [hs, if_true]
    by_cases hcond : 0 ≤ (b.x : Int) + (specOffset d).1 ∧ 0 ≤ (b.y : Int) + (specOffset d).2 ∧
        (b.x : Int) + (specOffset d).1 < (b.size : Int) ∧
        (b.y : Int) + (specOffset d).2 < (b.size : Int) ∧
        b.values.getD (((b.y : Int) + (specOffset d).2) * (b.size : Int)
          + ((b.x : Int) + (specOffset d).1)).toNat 0 = 0
    · rw [if_pos hcond]
      obtain ⟨hx0, hy0, hxs, hys, hcell⟩ := hcond
      have h1 : ((((b.x : Int) + (specOffset d).1).toNat : Int))
          = (b.x : Int) + (specOffset d).1 := Int.toNat_of_nonneg hx0
      have h2 : ((((b.y : Int) + (specOffset d).2).toNat : Int))
          = (b.y : Int) + (specOffset d).2 := Int.toNat_of_nonneg hy0
      constructor
      · intro hp
        rw [Option.some_inj] at hp
        rw [← hp]
        refine ⟨trivial, h1, h2, by omega, by omega, ?_⟩
        rw [← h1, ← h2, toNat_linear] at hcell
        exact hcell
      · rintro ⟨_, hp1, hp2, _, _, _⟩
        have e1 : ((b.x : Int) + (specOffset d).1).toNat = p.1 := by omega
        have e2 : ((b.y : Int) + (specOffset d).2).toNat = p.2 := by omega
        rw [Option.some_inj]
        exact Prod.ext e1 e2
    · rw [if_neg hcond]
      constructor
      · intro hp
        cases hp
      · rintro ⟨_, hp1, hp2, hps1, hps2, hcell⟩
        exfalso
        apply hcond
        refine ⟨by omega, by omega, by omega, by omega, ?_⟩
        rw [← hp1, ← hp2, toNat_linear]
        exact hcell

/-- C3: `valid_move(direction)` returns `some` destination exactly when the
board is started, the destination (cursor plus the direction's spec-table
offset) lies within `[0, size)` on both axes, and the destination cell holds
0; and `possible_moves()` is exactly the filter of `valid_move` success over
the eight directions in the fixed enumeration order. -/
theorem valid_move_possible_moves_spec (b : Board) (d : Direction) :
    (∀ p : Nat × Nat,
      b.valid_move d = some p ↔
        (b.is_started = true ∧
          (p.1 : Int) = (b.x : Int) + (specOffset d).1 ∧
          (p.2 : Int) = (b.y : Int) + (specOffset d).2 ∧
          p.1 < b.size ∧ p.2 < b.size ∧
          b.values.getD (p.2 * b.size + p.1) 0 = 0)) ∧
      b.possible_moves =
        [Direction.down, Direction.downRight, Direction.right, Direction.upRight,
          Direction.up, Direction.upLeft, Direction.left,
          Direction.downLeft].filter (fun d2 => (b.valid_move d2).isSome) :=
  ⟨fun p => valid_move_some_iff b d p, rfl⟩

/-- Counterexample for C4 as stated: from the reachable state `c4Board`
(score 2, cursor value 1), `next_move(Right)` succeeds but writes 2 — the
cursor value plus one, not the current maximum plus one — and the score
stays 2 instead of strictly increasing by exactly 1. -/
theorem next_move_max_counterexample :
    c4Board.score = 2 ∧
      c4Board.valid_move Direction.right = some (4, 1) ∧
      (c4Board.next_move Direction.right).1 = Except.ok () ∧
      ((c4Board.next_move Direction.right).2).values.getD (1 * 5 + 4) 0 = 2 ∧
      ¬ ((c4Board.next_move Direction.right).2).values.getD (1 * 5 + 4) 0
          = c4Board.score + 1 ∧
      ¬ ((c4Board.next_move Direction.right).2).score = c4Board.score + 1 := by
  refine ⟨by decide, by decide, rfl, by decide, by decide, by decide⟩

/-- C4 (amended): whenever `next_move(direction)` succeeds it writes the
cursor cell's value plus one (as a `u8`) into the destination returned by
`valid_move(direction)`, moves the cursor there, and leaves every other cell
(the previous cursor cell included) unchanged; `score()` increases by
exactly 1 provided the cursor holds the current maximum (true when
`start_at` succeeded exactly once) and the new value does not overflow. -/
theorem next_move_ok_spec (b : Board) (dir : Direction) (x y : Nat)
    (hlen : b.values.length = b.size * b.size)
    (hv : b.valid_move dir = some (x, y)) :
    (b.next_move dir).1 = Except.ok () ∧
      (b.next_move dir).2 =
        { b with
          x := x
          y := y
          values := b.values.set (y * b.size + x)
            ((b.values.getD b.cursorIdx 0 + 1) % 256) } ∧
      (∀ i, i ≠ y * b.size + x →
        ((b.next_move dir).2).values.getD i 0 = b.values.getD i 0) ∧
      (b.values.getD b.cursorIdx 0 = b.score → b.score + 1 < 256 →
        ((b.next_move dir).2).score = b.score + 1) := by
  obtain ⟨hs, _, _, hxs, hys, hcell⟩ := (valid_move_some_iff b dir (x, y)).mp hv
  have hnm : b.next_move dir
      = b.set_cell x y ((b.values.getD b.cursorIdx 0 + 1) % 256) :=
    next_move_dest b dir x y hs hv
  have hok := set_cell_ok b x y ((b.values.getD b.cursorIdx 0 + 1) % 256)
    (by omega) hcell
  rw [hnm, hok]
  refine ⟨rfl, rfl, ?_, ?_⟩
  · intro i hi
    exact getD_set_ne b.values (y * b.size + x) _ i (fun he => hi he.symm)
  · intro hcv hlt
    have hw : (b.values.getD b.cursorIdx 0 + 1) % 256 = b.score + 1 := by
      rw [hcv]
      exact Nat.mod_eq_of_lt hlt
    have hidx : y * b.size + x
        < (b.values.set (y * b.size + x) ((b.values.getD b.cursorIdx 0 + 1) % 256)).length := by
      rw [List.length_set, hlen]
      exact idx_lt_of_coords_lt x y b.size hxs hys
    apply score_eq_of_max
    · have hgv : (b.values.set (y * b.size + x)
          ((b.values.getD b.cursorIdx 0 + 1) % 256)).get ⟨y * b.size + x, hidx⟩
          = b.score + 1 := by
        rw [List.get_eq_getElem, List.getElem_set_self hidx, hw]
      rw [← hgv]
      exact List.get_mem _ _ hidx
    · intro v hv2
      have hsc : b.score = List.foldl Nat.max 0 b.values := rfl
      rcases List.mem_or_eq_of_mem_set hv2 with hmem | heq
      · have hle := foldl_max_mem b.values 0 v hmem
        omega
      · rw [heq, hw]

/-- Witness for C4 (amended) on a freshly started 5x5 board. -/
theorem next_move_ok_spec_witness :
    ((Board.new 5).applyOps [Op.start 0 0]).values.length
        = ((Board.new 5).applyOps [Op.start 0 0]).size
          * ((Board.new 5).applyOps [Op.start 0 0]).size ∧
      ((Board.new 5).applyOps [Op.start 0 0]).valid_move Direction.right = some (3, 0) ∧
      (((Board.new 5).applyOps [Op.start 0 0]).next_move Direction.right).1 = Except.ok () ∧
      ((((Board.new 5).applyOps [Op.start 0 0]).next_move Direction.right).2).score
        = ((Board.new 5).applyOps [Op.start 0 0]).score + 1 ∧
      ((((Board.new 5).applyOps [Op.start 0 0]).next_move Direction.right).2).values.getD 0 0
        = ((Board.new 5).applyOps [Op.start 0 0]).values.getD 0 0 :=
  ⟨by decide, by decide,
    (next_move_ok_spec ((Board.new 5).applyOps [Op.start 0 0]) Direction.right 3 0
      (by decide) (by decide)).1,
    (next_move_ok_spec ((Board.new 5).applyOps [Op.start 0 0]) Direction.right 3 0
      (by decide) (by decide)).2.2.2 (by decide) (by decide),
    (next_move_ok_spec ((Board.new 5).applyOps [Op.start 0 0]) Direction.right 3 0
      (by decide) (by decide)).2.2.1 0 (by decide)⟩

theorem new_values (n : Nat) :
    (Board.new n).values = List.replicate ((Board.new n).size * (Board.new n).size) 0 := rfl

theorem new_values_length (n : Nat) :
    (Board.new n).values.length = (Board.new n).size * (Board.new n).size := by
  rw [new_values, List.length_replicate]

theorem new_size_ge (n : Nat) : 5 ≤ (Board.new n).size := by
  simp only [Board.new]
  split_ifs <;> omega

theorem inv_new (n : Nat) : (Board.new n).Inv := by
  have h5 := new_size_ge n
  refine ⟨new_values_length n, ?_, ?_, ?_, ?_⟩
  · rw [show (Board.new n).x = 0 from rfl]
    omega
  · rw [show (Board.new n).y = 0 from rfl]
    omega
  · intro v hv
    rw [new_values] at hv
    rw [List.eq_of_mem_replicate hv]
    omega
  · intro hst
    rw [show (Board.new n).is_started
        = decide (0 < (List.replicate ((Board.new n).size * (Board.new n).size) 0).getD
          (Board.new n).cursorIdx 0) from rfl, getD_replicate_zero] at hst
    cases hst

theorem inv_start (n x y : Nat) : (((Board.new n).start_at x y).2).Inv := by
  have h5 := new_size_ge n
  have hcells : ¬ (Board.new n).cells < 1 := by
    have : 0 < (Board.new n).size * (Board.new n).size := Nat.mul_pos (by omega) (by omega)
    rw [show (Board.new n).cells = (Board.new n).size * (Board.new n).size from rfl]
    omega
  unfold Board.start_at
  rw [set_value_delegates _ _ _ _ (by omega) hcells]
  by_cases hoob : (Board.new n).size ≤ x ∨ (Board.new n).size ≤ y
  · rw [set_cell_oob _ _ _ _ hoob]
    exact inv_new n
  · have hcell : (Board.new n).values.getD (y * (Board.new n).size + x) 0 = 0 := by
      rw [new_values, getD_replicate_zero]
    rw [set_cell_ok _ _ _ _ hoob hcell]
    push_neg at hoob
    have hidx : y * (Board.new n).size + x < (Board.new n).values.length := by
      rw [new_values_length]
      exact idx_lt_of_coords_lt x y (Board.new n).size hoob.1 hoob.2
    have hcv : ((Board.new n).values.set (y * (Board.new n).size + x) 1).getD
        (y * (Board.new n).size + x) 0 = 1 := by
      rw [List.getD_eq_getElem?_getD, List.getElem?_set_self hidx]
      rfl
    refine ⟨?_, hoob.1, hoob.2, ?_, ?_⟩
    · show ((Board.new n).values.set (y * (Board.new n).size + x) 1).length
        = (Board.new n).size * (Board.new n).size
      rw [List.length_set, new_values_length]
    · intro v hv
      rcases List.mem_or_eq_of_mem_set hv with hm | he
      · rw [new_values] at hm
        rw [List.eq_of_mem_replicate hm]
        omega
      · omega
    · intro _ v hv
      show v ≤ ((Board.new n).values.set (y * (Board.new n).size + x) 1).getD
        (y * (Board.new n).size + x) 0
      rw [hcv]
      rcases List.mem_or_eq_of_mem_set hv with hm | he
      · rw [new_values] at hm
        rw [List.eq_of_mem_replicate hm]
        omega
      · omega

theorem inv_next (b : Board) (d : Direction) (h : b.Inv) : ((b.next_move d).2).Inv := by
  obtain ⟨hlen, hx, hy, h256, hbound⟩ := h
  rcases hs : b.is_started with _ | _
  · rw [next_move_unstarted b d hs]
    exact ⟨hlen, hx, hy, h256, hbound⟩
  · rcases hv : b.valid_move d with _ | ⟨⟨x, y⟩⟩
    · rw [next_move_no_dest b d hs hv]
      exact ⟨hlen, hx, hy, h256, hbound⟩
    · obtain ⟨_, _, _, hxs, hys, hcell⟩ := (valid_move_some_iff b d (x, y)).mp hv
      rw [next_move_dest b d x y hs hv, set_cell_ok _ _ _ _ (by omega) hcell]
      have hidx : y * b.size + x < b.values.length := by
        rw [hlen]
        exact idx_lt_of_coords_lt x y b.size hxs hys
      have hcv2 : (b.values.set (y * b.size + x)
          ((b.values.getD b.cursorIdx 0 + 1) % 256)).getD (y * b.size + x) 0
          = (b.values.getD b.cursorIdx 0 + 1) % 256 := by
        rw [List.getD_eq_getElem?_getD, List.getElem?_set_self hidx]
        rfl
      refine ⟨?_, hxs, hys, ?_, ?_⟩
      · show (b.values.set (y * b.size + x) ((b.values.getD b.cursorIdx 0 + 1) % 256)).length
          = b.size * b.size
        rw [List.length_set, hlen]
      · intro v hv2
        rcases List.mem_or_eq_of_mem_set hv2 with hm | he
        · exact h256 v hm
        · rw [he]
          exact Nat.mod_lt _ (by omega)
      · intro hst2 v hv2
        show v ≤ (b.values.set (y * b.size + x)
          ((b.values.getD b.cursorIdx 0 + 1) % 256)).getD (y * b.size + x) 0
        rw [hcv2]
        have hst3 : decide (0 < (b.values.set (y * b.size + x)
            ((b.values.getD b.cursorIdx 0 + 1) % 256)).getD (y * b.size + x) 0) = true := hst2
        rw [hcv2] at hst3
        have hwpos := of_decide_eq_true hst3
        have hcidx : b.cursorIdx < b.values.length := by
          rw [hlen]
          exact idx_lt_of_coords_lt b.x b.y b.size hx hy
        have hvmem : b.values.getD b.cursorIdx 0 ∈ b.values := by
          rw [List.getD_eq_getElem _ _ hcidx]
          exact List.getElem_mem hcidx
        have hvcur : b.values.getD b.cursorIdx 0 < 256 := h256 _ hvmem
        by_cases hv255 : b.values.getD b.cursorIdx 0 = 255
        · exfalso
          rw [hv255] at hwpos
          omega
        · have hwe : (b.values.getD b.cursorIdx 0 + 1) % 256
              = b.values.getD b.cursorIdx 0 + 1 := Nat.mod_eq_of_lt (by omega)
          rcases List.mem_or_eq_of_mem_set hv2 with hm | he
          · have := hbound hs v hm
            omega
          · omega

theorem inv_moves (ds : List Direction) (b : Board) (h : b.Inv) :
    (b.applyOps (ds.map Op.move)).Inv := by
  induction ds generalizing b with
  | nil => exact h
  | cons d t ih =>
    rw [List.map_cons, applyOps_cons]
    exact ih _ (inv_next b d h)

theorem cursor_eq_score_of_inv (b : Board) (h : b.Inv) (hs : b.is_started = true) :
    b.values.getD b.cursorIdx 0 = b.score := by
  obtain ⟨hlen, hx, hy, _, hbound⟩ := h
  have hcidx : b.cursorIdx < b.values.length := by
    rw [hlen]
    exact idx_lt_of_coords_lt b.x b.y b.size hx hy
  have hmem : b.values.getD b.cursorIdx 0 ∈ b.values := by
    rw [List.getD_eq_getElem _ _ hcidx]
    exact List.getElem_mem hcidx
  exact (score_eq_of_max b _ hmem (hbound hs)).symm

/-- Counterexample for C6 as stated: after the public-operation sequence
`[start_at(0,0), next_move(Right), start_at(1,1)]` the board is started but
the cursor cell holds 1 while the maximum value (`score()`) is 2 — the
cursor-maximum invariant fails for this reachable state. -/
theorem cursor_max_counterexample :
    c6Board.is_started = true ∧ c6Board.score = 2 ∧
      c6Board.values.getD c6Board.cursorIdx 0 = 1 ∧
      ¬ c6Board.values.getD c6Board.cursorIdx 0 = c6Board.score := by
  refine ⟨by decide, by decide, by decide, by decide⟩

/-- C6 (amended): before starting, the value at the cursor of a fresh board
is 0; and in every state reached from `new` by one `start_at` call followed
by any sequence of `next_move` calls — i.e. excluding the repeated-`start_at`
traces the counterexample exhibits — once the board is started the cursor
points at the cell holding the current maximum: the value at the cursor
equals `score()`. -/
theorem cursor_max_invariant_amended (n x y : Nat) (dirs : List Direction) :
    (Board.new n).values.getD (Board.new n).cursorIdx 0 = 0 ∧
      (((((Board.new n).start_at x y).2).applyOps (dirs.map Op.move)).is_started = true →
        ((((Board.new n).start_at x y).2).applyOps (dirs.map Op.move)).values.getD
            ((((Board.new n).start_at x y).2).applyOps (dirs.map Op.move)).cursorIdx 0
          = ((((Board.new n).start_at x y).2).applyOps (dirs.map Op.move)).score) := by
  constructor
  · rw [new_values, getD_replicate_zero]
  · intro hs
    exact cursor_eq_score_of_inv _ (inv_moves dirs _ (inv_start n x y)) hs

/-- Witness for C6 (amended): 5x5 board, `start_at(0,0)`, one move right. -/
theorem cursor_max_invariant_witness :
    (Board.new 5).values.getD (Board.new 5).cursorIdx 0 = 0 ∧
      ((((Board.new 5).start_at 0 0).2).applyOps
          ([Direction.right].map Op.move)).is_started = true ∧
      ((((Board.new 5).start_at 0 0).2).applyOps
          ([Direction.right].map Op.move)).values.getD
          ((((Board.new 5).start_at 0 0).2).applyOps
            ([Direction.right].map Op.move)).cursorIdx 0
        = ((((Board.new 5).start_at 0 0).2).applyOps
            ([Direction.right].map Op.move)).score :=
  ⟨(cursor_max_invariant_amended 5 0 0 [Direction.right]).1, by decide,
    (cursor_max_invariant_amended 5 0 0 [Direction.right]).2 (by decide)⟩

set_option maxRecDepth 20000 in
/-- C7: refuted on the code — the `u8` increment in `next_move` does
overflow on a reachable size-16 state.  The 255 calls of `overflowOps`
(one `start_at`, 254 moves) all succeed, leaving the cursor on a cell
holding 255 with `valid_move overflowDir` still available; the modelled
`next_move` then computes `(255 + 1) % 256 = 0` (the release-mode wrap of
the `val + 1` that panics in a debug build) and stores 0, leaving the board
unstarted. -/
theorem u8_overflow_reachable_size16 :
    ((Board.new 16).runChecked overflowOps).isSome = true ∧
      (((Board.new 16).runChecked overflowOps).getD (Board.new 16)).values.getD
          (((Board.new 16).runChecked overflowOps).getD (Board.new 16)).cursorIdx 0 = 255 ∧
      ((((Board.new 16).runChecked overflowOps).getD (Board.new 16)).valid_move
          overflowDir).isSome = true ∧
      (((((Board.new 16).runChecked overflowOps).getD (Board.new 16)).next_move
            overflowDir).2).values.getD
          (((((Board.new 16).runChecked overflowOps).getD (Board.new 16)).next_move
            overflowDir).2).cursorIdx 0 = 0 := by
  refine ⟨by decide, by decide, by decide, by decide⟩
